import Mathlib

/-
Verification of the rule-based detection-and-conversion engine of the
migrador repository (migration_engine.py): a shallow embedding of its
data model and operations, together with theorems about the behaviour
of each component.

Strings are modelled as lists of characters, matching Python strings
viewed as sequences of code points.  External collaborators of the
engine (the regular-expression library, hashlib, difflib, the XML
parser and serializer, and glob matching of search patterns) are
modelled as explicit function parameters of the embedded operations;
everything the engine itself computes is embedded directly from the
source.
-/

namespace Migrador

set_option maxHeartbeats 1000000

abbrev Str := List Char

def strL (s : String) : Str := s.toList

/-- Model of Python str.startswith on character lists. -/
def strStartsWith : Str → Str → Bool
  | _, [] => true
  | [], _ :: _ => false
  | c :: s, p :: ps => if c = p then strStartsWith s ps else false

/-- Model of Python str.endswith on character lists. -/
def strEndsWith (s suffixL : Str) : Bool :=
  strStartsWith s.reverse suffixL.reverse

/-- Model of the Python substring test (the in operator) on character lists. -/
def pyContains (sub : Str) : Str → Bool
  | [] => sub.isEmpty
  | c :: rest => strStartsWith (c :: rest) sub || pyContains sub rest

/-- Model of Python str.lower; the engine only lowercases rule identifiers,
which are ASCII, so the ASCII mapping suffices. -/
def pyLower (s : Str) : Str := s.map Char.toLower

def pyIsSpace (c : Char) : Bool :=
  c = ' ' || c = '\t' || c = '\n' || c = '\r' || c = '\x0b' || c = '\x0c'

/-- Model of Python str.strip() with no argument (whitespace on both ends). -/
def pyStrip (s : Str) : Str :=
  ((s.dropWhile pyIsSpace).reverse.dropWhile pyIsSpace).reverse

/-- Model of str.rstrip("\n\r") as used by the position resolver. -/
def pyRstripNl (s : Str) : Str :=
  (s.reverse.dropWhile (fun c => c = '\n' || c = '\r')).reverse

/-- Model of str.lstrip(".") as used on a path suffix. -/
def pyLstripDot (s : Str) : Str := s.dropWhile (fun c => c = '.')

/-- Model of Python str.replace: leftmost non-overlapping global literal
substitution.  The fuel argument starts at the length of the string, which
always suffices because every step consumes at least one character.  Every
caller in the engine guards the pattern to be non-empty. -/
def pyReplaceAux (old new : Str) : Nat → Str → Str
  | 0, s => s
  | _ + 1, [] => []
  | fuel + 1, c :: rest =>
    if old ≠ [] ∧ strStartsWith (c :: rest) old then
      new ++ pyReplaceAux old new fuel ((c :: rest).drop old.length)
    else
      c :: pyReplaceAux old new fuel rest

def pyReplace (s old new : Str) : Str := pyReplaceAux old new s.length s

/-- Model of Python str.count: number of leftmost non-overlapping occurrences;
counting the empty string yields length + 1, as in Python. -/
def pyCountAux (sub : Str) : Nat → Str → Nat
  | 0, _ => 0
  | _ + 1, [] => 0
  | fuel + 1, c :: rest =>
    if sub ≠ [] ∧ strStartsWith (c :: rest) sub then
      1 + pyCountAux sub fuel ((c :: rest).drop sub.length)
    else
      pyCountAux sub fuel rest

def pyCount (s sub : Str) : Nat :=
  if sub.isEmpty then s.length + 1 else pyCountAux sub s.length s

/-- Characters treated as line terminators by Python str.splitlines. -/
def isLineBreak (c : Char) : Bool :=
  c = '\n' || c = '\r' || c = '\x0b' || c = '\x0c' || c = '\x1c' ||
  c = '\x1d' || c = '\x1e' || c = '\x85' || c = '\u2028' || c = '\u2029'

/-- Model of Python str.splitlines(keepends=True).  The accumulator holds the
current line reversed; "\r\n" counts as a single terminator. -/
def splitKeepAux : Str → Str → List Str
  | [], acc => if acc.isEmpty then [] else [acc.reverse]
  | '\r' :: '\n' :: rest, acc => (acc.reverse ++ ['\r', '\n']) :: splitKeepAux rest []
  | c :: rest, acc =>
    if isLineBreak c then (acc.reverse ++ [c]) :: splitKeepAux rest []
    else splitKeepAux rest (c :: acc)

def pySplitlinesKeep (s : Str) : List Str := splitKeepAux s []

/-- Removes one trailing line terminator from a keepends line. -/
def stripEol (l : Str) : Str :=
  match l.reverse with
  | '\n' :: '\r' :: rest => rest.reverse
  | c :: rest => if isLineBreak c then rest.reverse else l
  | [] => []

/-- Model of Python str.splitlines() (without keepends). -/
def pySplitlines (s : Str) : List Str := (pySplitlinesKeep s).map stripEol

/-
Position resolver: find_line_col walks the keepends lines accumulating
their lengths until the running total passes the offset (source lines
178-189); when no line contains the offset it falls through to
(1, 1, empty).
-/

def flc_go (index : Nat) : List Str → Nat → Nat → Nat × Nat × Str
  | [], _, _ => (1, 1, [])
  | line :: rest, acc, i =>
    if index < acc + line.length then (i + 1, index - acc + 1, pyRstripNl line)
    else flc_go index rest (acc + line.length) (i + 1)

def find_line_col (content : Str) (index : Nat) : Nat × Nat × Str :=
  flc_go index (pySplitlinesKeep content) 0 0

theorem splitKeepAux_flatten (s acc : Str) :
    (splitKeepAux s acc).flatten = acc.reverse ++ s := by
  induction s, acc using splitKeepAux.induct with
  | case1 acc h =>
    simp [splitKeepAux, h]
    exact List.isEmpty_iff.mp h
  | case2 acc h => simp [splitKeepAux, h]
  | case3 rest acc ih => simp [splitKeepAux, ih]
  | case4 c rest acc hne hb ih => simp [splitKeepAux, hne, hb, ih]
  | case5 c rest acc hne hb ih => simp [splitKeepAux, hne, hb, ih]

theorem splitKeepAux_ne_nil (s acc : Str) : ∀ l : Str,
    l ∈ splitKeepAux s acc → l ≠ [] := by
  induction s, acc using splitKeepAux.induct with
  | case1 acc h => intro l hl; simp [splitKeepAux, h] at hl
  | case2 acc h =>
    intro l hl
    simp [splitKeepAux, h] at hl
    subst hl
    simpa [List.isEmpty_iff] using h
  | case3 rest acc ih =>
    intro l hl
    simp only [splitKeepAux, List.mem_cons] at hl
    rcases hl with hl | hl
    · subst hl; simp
    · exact ih _ hl
  | case4 c rest acc hne hb ih =>
    intro l hl
    simp [splitKeepAux, hne, hb] at hl
    rcases hl with hl | hl
    · subst hl; simp
    · exact ih _ hl
  | case5 c rest acc hne hb ih =>
    intro l hl
    simp [splitKeepAux, hne, hb] at hl
    exact ih _ hl

theorem flc_go_oob (index : Nat) : ∀ (lines : List Str) (acc i : Nat),
    acc + (lines.map List.length).sum ≤ index →
    flc_go index lines acc i = (1, 1, []) := by
  intro lines
  induction lines with
  | nil => intro acc i _; simp [flc_go]
  | cons l rest ih =>
    intro acc i h
    simp only [List.map_cons, List.sum_cons] at h
    have hlt : ¬ index < acc + l.length := by omega
    simp only [flc_go, if_neg hlt]
    exact ih (acc + l.length) (i + 1) (by omega)

theorem flatten_len_eq (content : Str) :
    ((pySplitlinesKeep content).map List.length).sum = content.length := by
  have h := splitKeepAux_flatten content []
  simp only [List.reverse_nil, List.nil_append] at h
  calc ((pySplitlinesKeep content).map List.length).sum
      = (pySplitlinesKeep content).flatten.length := by
        rw [List.length_flatten]
    _ = content.length := by rw [pySplitlinesKeep]; rw [h]

/-- Claim C6 counterexample: the claim says an offset equal to the content
length resolves to the last line, but find_line_col falls through to
(1, 1, empty): on content "a\nb" at offset 3 it returns line 1 with empty
text, while the last line is line 2 with text "b". -/
theorem find_line_col_end_of_content_cex :
    find_line_col (strL "a\nb") 3 = (1, 1, []) ∧
    pySplitlines (strL "a\nb") = [strL "a", strL "b"] := by
  constructor
  · decide
  · decide

/-- Claim C6 (amended): offset 0 on non-empty content resolves to line 1,
column 1 with the first line text (trailing CR and LF stripped); any offset
greater than or equal to the content length — in particular an offset equal
to the content length — resolves to (1, 1, empty string), not to the last
line; and on empty content every offset resolves to (1, 1, empty string). -/
theorem find_line_col_boundary (content : Str) :
    (content ≠ [] →
      find_line_col content 0 =
        (1, 1, pyRstripNl ((pySplitlinesKeep content).headD []))) ∧
    (∀ i : Nat, content.length ≤ i → find_line_col content i = (1, 1, [])) ∧
    (∀ i : Nat, find_line_col [] i = (1, 1, [])) := by
  refine ⟨?_, ?_, ?_⟩
  · intro hne
    have hjoin : (pySplitlinesKeep content).flatten = content := by
      simpa using splitKeepAux_flatten content []
    cases hlines : pySplitlinesKeep content with
    | nil => rw [hlines] at hjoin; simp at hjoin; exact absurd hjoin hne
    | cons l ls =>
      have hmem : l ∈ splitKeepAux content [] := by
        rw [show splitKeepAux content [] = pySplitlinesKeep content from rfl, hlines]
        exact List.mem_cons_self l ls
      have hl : l ≠ [] := splitKeepAux_ne_nil content [] l hmem
      have hlen : 0 < l.length := List.length_pos.mpr hl
      rw [find_line_col, hlines]
      simp [flc_go, hlen]
  · intro i hi
    rw [find_line_col]
    apply flc_go_oob
    rw [flatten_len_eq]
    omega
  · intro i
    rw [find_line_col]
    simp [pySplitlinesKeep, splitKeepAux, flc_go]

/-- Witness for find_line_col_boundary at concrete content. -/
theorem find_line_col_boundary_witness :
    find_line_col (strL "ab\ncd") 0 =
      (1, 1, pyRstripNl ((pySplitlinesKeep (strL "ab\ncd")).headD [])) ∧
    find_line_col (strL "ab\ncd") 5 = (1, 1, []) ∧
    find_line_col [] 7 = (1, 1, []) :=
  ⟨(find_line_col_boundary (strL "ab\ncd")).1 (by decide),
   (find_line_col_boundary (strL "ab\ncd")).2.1 5 (by decide),
   (find_line_col_boundary []).2.2 7⟩

/-
Data model.  Rule mirrors the Rule dataclass (source lines 16-26); the
compiled detection pattern is modelled by its observable behaviour in
the engine, a function giving the start offsets of the non-overlapping
matches that finditer yields.  Occurrence mirrors the dictionary built
by detect_in_content (lines 222-239), Change the dictionaries appended
by the two rewriters (optional keys are absent on the structural path),
and FileAudit the FileAudit dataclass.
-/

structure Rule where
  id : Str
  severity : Str
  description : Str
  detect : Str → List Nat
  convert_enabled : Bool
  convert_old : Option Str
  convert_new : Option Str
  category : Option Str
  domain : Option Str

structure Occurrence where
  file : Str
  rule_id : Str
  severity : Str
  description : Str
  domain : Option Str
  category : Option Str
  line : Nat
  column : Nat
  original_line : Str
  new_line : Str
  context_before : Str
  context_after : Str
  diff : Option Str
deriving DecidableEq

structure Change where
  file : Str
  rule_id : Str
  severity : Option Str := none
  description : Option Str := none
  domain : Option (Option Str) := none
  occurrences : Option Nat := none
  old_value : Str
  new_value : Option Str
deriving DecidableEq

structure FileAudit where
  file : Str
  before_hash : Option Str
  after_hash : Option Str
  changed : Bool
deriving DecidableEq

/-
Detector (source lines 207-241): for every rule, every match offset is
resolved to a line and column; the occurrence records the whole source
line at that position, one line of context on each side, and starts
with new_line equal to original_line and a null diff.
-/

def detect_in_content (content : Str) (rules : List Rule) (file_path : Str) :
    List Occurrence :=
  let lines := pySplitlines content
  (rules.map (fun rule =>
    (rule.detect content).map (fun start =>
      let lc := find_line_col content start
      let full_line := lines.getD (lc.1 - 1) []
      { file := file_path
        rule_id := rule.id
        severity := rule.severity
        description := rule.description
        domain := rule.domain
        category := rule.category
        line := lc.1
        column := lc.2.1
        original_line := full_line
        new_line := full_line
        context_before := if 2 ≤ lc.1 then lines.getD (lc.1 - 2) [] else []
        context_after := if lc.1 < lines.length then lines.getD lc.1 [] else []
        diff := none }))).flatten

/-
Generic rewriter (source lines 340-390).  The guard mirrors line 341:
the rule is skipped unless conversion is enabled, the old value is a
non-empty string and the new value is present.  difflib.unified_diff is
external and is modelled by the udiff parameter.
-/

def oldTruthy : Option Str → Bool
  | none => false
  | some s => !s.isEmpty

def conv_guard (rule : Rule) : Bool :=
  rule.convert_enabled && oldTruthy rule.convert_old && rule.convert_new.isSome

def ruleOld (rule : Rule) : Str := rule.convert_old.getD []

def ruleNew (rule : Rule) : Str := rule.convert_new.getD []

def conv_occ_update (udiff : Str → Str → Str) (rule : Rule) (occ : Occurrence) :
    Occurrence :=
  if occ.rule_id = rule.id then
    let original := occ.original_line
    let nl :=
      if pyContains (ruleOld rule) original then
        pyReplace original (ruleOld rule) (ruleNew rule)
      else original
    { occ with new_line := nl, diff := some (udiff original nl) }
  else occ

def conv_step (udiff : Str → Str → Str) (file_path : Str)
    (st : Str × List Occurrence × List Change) (rule : Rule) :
    Str × List Occurrence × List Change :=
  if conv_guard rule = false then st
  else if pyContains (ruleOld rule) st.1 = false then st
  else
    let c2 := pyReplace st.1 (ruleOld rule) (ruleNew rule)
    (c2,
     st.2.1.map (conv_occ_update udiff rule),
     st.2.2 ++ [{ file := file_path, rule_id := rule.id,
                  severity := some rule.severity,
                  description := some rule.description,
                  domain := some rule.domain,
                  occurrences := some (pyCount c2 (ruleNew rule)),
                  old_value := ruleOld rule,
                  new_value := some (ruleNew rule) }])

/-- Content evolution of the generic rewriter pass in isolation: the running
content after the listed rules have been processed. -/
def conv_content (rules : List Rule) (c : Str) : Str :=
  match rules with
  | [] => c
  | rule :: rest =>
    if conv_guard rule && pyContains (ruleOld rule) c then
      conv_content rest (pyReplace c (ruleOld rule) (ruleNew rule))
    else conv_content rest c

/-- Final state of a single occurrence after the generic rewriter pass. -/
def conv_occ_final (udiff : Str → Str → Str) (rules : List Rule) (c : Str)
    (occ : Occurrence) : Occurrence :=
  match rules with
  | [] => occ
  | rule :: rest =>
    if conv_guard rule && pyContains (ruleOld rule) c then
      conv_occ_final udiff rest (pyReplace c (ruleOld rule) (ruleNew rule))
        (conv_occ_update udiff rule occ)
    else conv_occ_final udiff rest c occ

/-- Behaviour of a compiled literal pattern under finditer: start offsets of
the leftmost non-overlapping occurrences.  Used to instantiate the detect
field of concrete rules. -/
def lfAux (pat : Str) : Nat → Str → Nat → List Nat
  | 0, _, _ => []
  | _ + 1, [], _ => []
  | fuel + 1, c :: rest, i =>
    if pat ≠ [] ∧ strStartsWith (c :: rest) pat then
      i :: lfAux pat fuel ((c :: rest).drop pat.length) (i + pat.length)
    else lfAux pat fuel rest (i + 1)

def literalFinder (pat : Str) (s : Str) : List Nat := lfAux pat s.length s 0

/-
Structural rewriter for dependency descriptors (source lines 245-327).
The XML tree of ElementTree is modelled by XElem: a tag, the text
before the first child, and the child elements.  Parsing and
serialisation belong to the external XML library and appear as the
parse and serialize parameters.  Python mutates the artifactId and
version elements in place by assigning their text attribute; the
embedding tracks the current text of those two elements through the
rule loop and writes it back when the dependency element is rebuilt.
-/

inductive XElem where
  | node (tag : Str) (text : Option Str) (children : List XElem)

def XElem.tag : XElem → Str
  | .node t _ _ => t

def XElem.text : XElem → Option Str
  | .node _ tx _ => tx

def XElem.children : XElem → List XElem
  | .node _ _ cs => cs

/-- Model of Element.find on direct children: the first child element with
the given tag. -/
def findChild (t : Str) : List XElem → Option XElem
  | [] => none
  | c :: rest => if c.tag = t then some c else findChild t rest

/-- Writes a text value into the first child element with the given tag,
modelling the in-place assignment to the text attribute of that element. -/
def setFirstChildText (t : Str) (tx : Option Str) : List XElem → List XElem
  | [] => []
  | c :: rest =>
    if c.tag = t then XElem.node c.tag tx c.children :: rest
    else c :: setFirstChildText t tx rest

/-- Text of an optional element, stripped; empty when the element is absent
or its text is absent or empty (source lines 269-271). -/
def elemTextStrip : Option XElem → Str
  | none => []
  | some e =>
    match e.text with
    | none => []
    | some t => if t.isEmpty then [] else pyStrip t

/-- Namespace detection (source lines 258-261): when the root tag starts
with an opening brace the namespace is everything up to and including the
first closing brace. -/
def nsOf (root : XElem) : Str :=
  if strStartsWith root.tag ['\x7b'] then
    root.tag.takeWhile (fun c => c ≠ '\x7d') ++ ['\x7d']
  else []

mutual

def xsize : XElem → Nat
  | .node _ _ cs => 1 + xsizeL cs

def xsizeL : List XElem → Nat
  | [] => 0
  | c :: rest => xsize c + xsizeL rest

end

theorem xsize_node (t : Str) (tx : Option Str) (cs : List XElem) :
    xsize (XElem.node t tx cs) = 1 + xsizeL cs := by
  rw [xsize]

theorem xsize_pos (e : XElem) : 1 ≤ xsize e := by
  cases e with
  | node t tx cs => rw [xsize_node]; omega

theorem xsizeL_children_lt (e : XElem) : xsizeL e.children < xsize e := by
  cases e with
  | node t tx cs => rw [xsize_node, XElem.children]; omega

theorem xsizeL_set (t : Str) (tx : Option Str) (cs : List XElem) :
    xsizeL (setFirstChildText t tx cs) = xsizeL cs := by
  induction cs with
  | nil => rfl
  | cons c rest ih =>
    by_cases h : c.tag = t
    · cases c with
      | node ct cx cc =>
        simp only [setFirstChildText, h, if_true, xsizeL]
        rw [xsize_node, xsize_node, XElem.children]
    · simp only [setFirstChildText, h, if_false, xsizeL, ih]

def pomAidPre : Str := strL "pom_artifactid"

def pomVerPre : Str := strL "pom_version"

/-- Occurrence back-fill used by the structural rewriter (source lines
286-291 and 311-316): any occurrence of the same rule whose recorded line,
stripped, equals the pre-edit serialised element gets the post-edit
serialisation as new_line plus a diff. -/
def pom_occ_update (udiff : Str → Str → Str) (rid old_line new_line : Str)
    (occ : Occurrence) : Occurrence :=
  if occ.rule_id = rid ∧ pyStrip occ.original_line = old_line then
    { occ with new_line := new_line, diff := some (udiff old_line new_line) }
  else occ

/-- ArtifactId branch of the rule loop inside a dependency element
(source lines 276-298): fires when the rule id signals an artifact-id
conversion, conversion is enabled and the old value equals the snapshot
artifact-id text; when the guard holds the element necessarily exists, so
the arm requiring a present element is exhaustive over reachable states. -/
def pom_aid_step (file_path : Str) (serialize : XElem → Str)
    (udiff : Str → Str → Str) (aid0 : Option XElem) (aid_text : Str)
    (st : Option Str × Option Str × List Occurrence × List Change)
    (rule : Rule) : Option Str × Option Str × List Occurrence × List Change :=
  match aid0, rule.convert_old with
  | some a, some o =>
    if strStartsWith (pyLower rule.id) pomAidPre && rule.convert_enabled
        && decide (o ≠ [] ∧ o = aid_text) then
      let old_line := pyStrip (serialize (XElem.node a.tag st.1 a.children))
      let new_line :=
        pyStrip (serialize (XElem.node a.tag rule.convert_new a.children))
      (rule.convert_new, st.2.1,
       st.2.2.1.map (pom_occ_update udiff rule.id old_line new_line),
       st.2.2.2 ++ [{ file := file_path, rule_id := rule.id,
                      old_value := o, new_value := rule.convert_new }])
    else st
  | _, _ => st

/-- Version branch of the rule loop inside a dependency element (source
lines 301-323): fires only when, additionally, some artifact-id rule of
the same rule set has old value equal to the snapshot artifact-id text
and the snapshot version text equals the old value of the rule. -/
def pom_ver_step (file_path : Str) (serialize : XElem → Str)
    (udiff : Str → Str → Str) (rules : List Rule) (ver0 : Option XElem)
    (aid_text ver_text : Str)
    (st : Option Str × Option Str × List Occurrence × List Change)
    (rule : Rule) : Option Str × Option Str × List Occurrence × List Change :=
  match ver0, rule.convert_old with
  | some v, some o =>
    if strStartsWith (pyLower rule.id) pomVerPre && rule.convert_enabled
        && decide (o ≠ [] ∧ aid_text ≠ [])
        && rules.any (fun r =>
             strStartsWith (pyLower r.id) pomAidPre
               && decide (r.convert_old = some aid_text))
        && decide (ver_text = o) then
      let old_line := pyStrip (serialize (XElem.node v.tag st.2.1 v.children))
      let new_line :=
        pyStrip (serialize (XElem.node v.tag rule.convert_new v.children))
      (st.1, rule.convert_new,
       st.2.2.1.map (pom_occ_update udiff rule.id old_line new_line),
       st.2.2.2 ++ [{ file := file_path, rule_id := rule.id,
                      old_value := o, new_value := rule.convert_new }])
    else st
  | _, _ => st

/-- One iteration of the rule loop inside a dependency element (source
lines 274-323): the artifactId branch runs first, then the version branch
over the updated state of that branch.  The state carries the current text of
the artifactId and version elements, the occurrence list and the
collected changes; aid_text and ver_text are the snapshots taken before
the loop. -/
def pom_rule_step (file_path : Str) (serialize : XElem → Str)
    (udiff : Str → Str → Str) (rules : List Rule) (aid0 ver0 : Option XElem)
    (aid_text ver_text : Str)
    (st : Option Str × Option Str × List Occurrence × List Change)
    (rule : Rule) : Option Str × Option Str × List Occurrence × List Change :=
  pom_ver_step file_path serialize udiff rules ver0 aid_text ver_text
    (pom_aid_step file_path serialize udiff aid0 aid_text st rule) rule

/-- Processing of one dependency element (source lines 264-323): read the
artifactId and version children and their stripped texts, run the rule
loop, and rebuild the element with the final texts written back. -/
def processDep (file_path : Str) (serialize : XElem → Str)
    (udiff : Str → Str → Str) (rules : List Rule) (ns : Str) (dep : XElem)
    (occs : List Occurrence) : XElem × List Occurrence × List Change :=
  let aidT := ns ++ strL "artifactId"
  let verT := ns ++ strL "version"
  let aid0 := findChild aidT dep.children
  let ver0 := findChild verT dep.children
  let aid_text := elemTextStrip aid0
  let ver_text := elemTextStrip ver0
  let st := rules.foldl
    (pom_rule_step file_path serialize udiff rules aid0 ver0 aid_text ver_text)
    (aid0.bind XElem.text, ver0.bind XElem.text, occs, ([] : List Change))
  let cs1 :=
    if aid0.isSome then setFirstChildText aidT st.1 dep.children
    else dep.children
  let cs2 := if ver0.isSome then setFirstChildText verT st.2.1 cs1 else cs1
  (XElem.node dep.tag dep.text cs2, st.2.2.1, st.2.2.2)

theorem xsize_processDep (file_path : Str) (serialize : XElem → Str)
    (udiff : Str → Str → Str) (rules : List Rule) (ns : Str) (dep : XElem)
    (occs : List Occurrence) :
    xsize (processDep file_path serialize udiff rules ns dep occs).1 =
      xsize dep := by
  cases dep with
  | node t tx cs =>
    simp only [processDep, xsize_node]
    split_ifs <;> simp [xsizeL_set, XElem.children, xsize_node]

/-- Tree walk of the structural rewriter: findall(".//ns:dependency")
yields every dependency descendant in document order, and each is
processed in turn; since an edit only changes the text of two direct
children, processing the children of the edited node afterwards visits exactly
the elements that the pre-collected list of the source visits. -/
def pomWalkList (file_path : Str) (serialize : XElem → Str)
    (udiff : Str → Str → Str) (rules : List Rule) (ns : Str) :
    List XElem → List Occurrence → List XElem × List Occurrence × List Change
  | [], occs => ([], occs, [])
  | e :: rest, occs =>
    let p := if e.tag = ns ++ strL "dependency"
             then processDep file_path serialize udiff rules ns e occs
             else (e, occs, [])
    let w := pomWalkList file_path serialize udiff rules ns p.1.children p.2.1
    let r := pomWalkList file_path serialize udiff rules ns rest w.2.1
    (XElem.node p.1.tag p.1.text w.1 :: r.1, r.2.1, p.2.2 ++ w.2.2 ++ r.2.2)
termination_by cs _ => xsizeL cs
decreasing_by
  · simp only [xsizeL]
    split
    · have h1 := xsizeL_children_lt
        (processDep file_path serialize udiff rules ns e occs).1
      rw [xsize_processDep] at h1
      omega
    · have h1 := xsizeL_children_lt e
      show xsizeL e.children < xsize e + xsizeL rest
      omega
  · simp only [xsizeL]
    have h3 := xsize_pos e
    omega

/-- Structural rewriter entry point (source lines 245-327): on a parse
failure the content is returned untouched with no changes; otherwise the
dependency elements are rewritten and the whole tree is re-serialised
unconditionally. -/
def apply_pom_dependency_changes (parse : Str → Option XElem)
    (serialize : XElem → Str) (udiff : Str → Str → Str)
    (content file_path : Str) (occurrences : List Occurrence)
    (rules : List Rule) : Str × List Occurrence × List Change :=
  match parse content with
  | none => (content, occurrences, [])
  | some root =>
    let ns := nsOf root
    let w := pomWalkList file_path serialize udiff rules ns root.children
      occurrences
    (serialize (XElem.node root.tag root.text w.1), w.2.1, w.2.2)

/-- Conversion pass (source lines 330-390): for dependency-descriptor file
paths the structural rewriter runs first on the content, then every rule
is applied as a global literal substitution over the running content. -/
def apply_conversions (parse : Str → Option XElem) (serialize : XElem → Str)
    (udiff : Str → Str → Str) (content : Str) (rules : List Rule)
    (file_path : Str) (occurrences : List Occurrence) :
    Str × List Occurrence × List Change :=
  let st0 :=
    if strEndsWith file_path (strL "pom.xml")
    then apply_pom_dependency_changes parse serialize udiff content file_path
      occurrences rules
    else (content, occurrences, ([] : List Change))
  rules.foldl (conv_step udiff file_path) st0

/-
File processor (source lines 400-471).  The search-pattern gate
(matches_search_pattern over pathlib glob matching) and the content hash
(hashlib sha256) belong to external collaborators and appear as the
searchMatch and hash parameters.  Paths are the plain strings produced
by str(Path); name and suffix follow the pathlib definitions.
-/

def pathName (fp : Str) : Str :=
  (fp.reverse.takeWhile (fun c => c ≠ '/')).reverse

def pathSuffix (fp : Str) : Str :=
  let n := pathName fp
  let tailLen := (n.reverse.takeWhile (fun c => c ≠ '.')).length
  if tailLen = n.length then []
  else
    let i := n.length - tailLen - 1
    if 0 < i ∧ i < n.length - 1 then n.drop i else []

def with_suffix_model (fp newSuffix : Str) : Str :=
  fp.take (fp.length - (pathSuffix fp).length) ++ newSuffix

def assocFind : List (Str × List Rule) → Str → Option (List Rule)
  | [], _ => none
  | (k2, v) :: rest, k => if k2 = k then some v else assocFind rest k

/-- Straight-line part of process_file (source lines 412-447): rule
selection by file name, extension and domain, detection, the conversion
pass, and the hash audit.  Everything here is computed before the dry-run
branch in the source. -/
def process_file_core (hash : Str → Str) (parse : Str → Option XElem)
    (serialize : XElem → Str) (udiff : Str → Str → Str)
    (file_path content : Str) (sql plsql java : List Rule)
    (file_specific : List (Str × List Rule)) :
    (List Occurrence × List Change × FileAudit) × Str :=
  let before_hash := hash content
  let file_name := pathName file_path
  let ext := pyLstripDot (pathSuffix file_path)
  let rules_to_apply :=
    ((assocFind file_specific file_name).getD []) ++
      ((assocFind file_specific ext).getD [])
  let domain_rules :=
    if strEndsWith file_name (strL ".java") then java
    else if strEndsWith file_name (strL ".sql") then sql ++ plsql
    else []
  let all_rules := rules_to_apply ++ domain_rules
  let occurrences := detect_in_content content all_rules file_path
  let conv := apply_conversions parse serialize udiff content all_rules
    file_path occurrences
  let changed : Bool := decide (conv.1 ≠ content)
  let after_hash := if changed then hash conv.1 else before_hash
  ((conv.2.1, conv.2.2,
    { file := file_path, before_hash := some before_hash,
      after_hash := some after_hash, changed := changed }), conv.1)

/-- process_file (source lines 400-471).  Files not matching the search
patterns produce nothing; otherwise detection and conversion always run,
and only the returned write list depends on the dry-run flag: in apply
mode a changed file is backed up (original content under the suffixed
path) and then overwritten. -/
def process_file (hash : Str → Str) (parse : Str → Option XElem)
    (serialize : XElem → Str) (udiff : Str → Str → Str)
    (searchMatch : Str → Bool) (file_path content : Str)
    (sql plsql java : List Rule) (file_specific : List (Str × List Rule))
    (backup_ext : Str) (dry_run : Bool) :
    (List Occurrence × List Change × Option FileAudit) × List (Str × Str) :=
  if searchMatch file_path then
    let c := process_file_core hash parse serialize udiff file_path content
      sql plsql java file_specific
    if dry_run then ((c.1.1, c.1.2.1, some c.1.2.2), [])
    else
      ((c.1.1, c.1.2.1, some c.1.2.2),
       if c.1.2.2.changed then
         [(with_suffix_model file_path (pathSuffix file_path ++ backup_ext),
           content),
          (file_path, c.2)]
       else [])
  else (([], [], none), [])

/-
Scan loop (source lines 504-523).  Reading the file happens inside
process_file after the search-pattern gate; a file is modelled by its
path together with the outcome of reading it.  The source wraps the call
to process_file in no exception handler, so an error raised for one file
propagates out of the walking loop: it is modelled by the Except monad
with no recovery.
-/

def process_file_io (hash : Str → Str) (parse : Str → Option XElem)
    (serialize : XElem → Str) (udiff : Str → Str → Str)
    (searchMatch : Str → Bool) (file_path : Str)
    (readResult : Except Unit Str) (sql plsql java : List Rule)
    (file_specific : List (Str × List Rule)) (backup_ext : Str)
    (dry_run : Bool) :
    Except Unit
      ((List Occurrence × List Change × Option FileAudit) × List (Str × Str)) :=
  if searchMatch file_path then
    match readResult with
    | .error e => .error e
    | .ok content =>
      .ok (process_file hash parse serialize udiff searchMatch file_path
        content sql plsql java file_specific backup_ext dry_run)
  else .ok (([], [], none), [])

def scan_files (hash : Str → Str) (parse : Str → Option XElem)
    (serialize : XElem → Str) (udiff : Str → Str → Str)
    (searchMatch : Str → Bool) (sql plsql java : List Rule)
    (file_specific : List (Str × List Rule)) (backup_ext : Str)
    (dry_run : Bool) :
    List (Str × Except Unit Str) →
    Except Unit
      (List Occurrence × List Change × List FileAudit × List (Str × Str))
  | [] => .ok ([], [], [], [])
  | (fp, rd) :: rest =>
    match process_file_io hash parse serialize udiff searchMatch fp rd sql
      plsql java file_specific backup_ext dry_run with
    | .error e => .error e
    | .ok res =>
      match scan_files hash parse serialize udiff searchMatch sql plsql java
        file_specific backup_ext dry_run rest with
      | .error e => .error e
      | .ok acc =>
        .ok (res.1.1 ++ acc.1, res.1.2.1 ++ acc.2.1,
             (match res.1.2.2 with
              | some a => a :: acc.2.2.1
              | none => acc.2.2.1),
             res.2 ++ acc.2.2.2)

/-
Rule compiler (source lines 81-167).  The raw configuration mirrors the
JSON document; re.compile is external and appears as the rc parameter,
which — exactly as at source lines 107, 124, 141 and 158 — receives only
the dot-all flag and the pattern string of the rule being compiled, never
the rule id.  Compilation of a collection stops at the first failing
pattern and the error propagates out of compile_rules.
-/

structure RawDetect where
  Regexp : Str

structure RawConvert where
  Enabled : Option Bool := none
  Old : Option Str := none
  New : Option Str := none

structure RawRule where
  ID : Str
  Severity : Option Str := none
  Description : Option Str := none
  Detect : RawDetect
  Convert : Option RawConvert := none
  Category : Option Str := none

structure Config where
  FileSpecificRules : List (Str × List RawRule) := []
  SQLRules : List RawRule := []
  PLSQLRules : List RawRule := []
  JavaTypeRules : List RawRule := []

structure CompiledRules where
  file_specific : List (Str × List Rule)
  sql : List Rule
  plsql : List Rule
  java : List Rule

def exceptOk {ε α : Type _} : Except ε α → Bool
  | .ok _ => true
  | .error _ => false

def compileRawRule (rc : Bool → Str → Except Str (Str → List Nat))
    (dotall : Bool) (useCat : Bool) (domain : Str) (r : RawRule) :
    Except Str Rule :=
  match rc dotall r.Detect.Regexp with
  | .error e => .error e
  | .ok m =>
    .ok { id := r.ID
          severity := r.Severity.getD (strL "INFO")
          description := r.Description.getD []
          detect := m
          convert_enabled :=
            (match r.Convert with
             | some cv => cv.Enabled.getD false
             | none => false)
          convert_old := r.Convert.bind RawConvert.Old
          convert_new := r.Convert.bind RawConvert.New
          category := if useCat then r.Category else none
          domain := some domain }

def compileListE (f : RawRule → Except Str Rule) :
    List RawRule → Except Str (List Rule)
  | [] => .ok []
  | r :: rest =>
    match f r with
    | .error e => .error e
    | .ok cr =>
      match compileListE f rest with
      | .error e => .error e
      | .ok crs => .ok (cr :: crs)

def compileFS (rc : Bool → Str → Except Str (Str → List Nat)) :
    List (Str × List RawRule) → Except Str (List (Str × List Rule))
  | [] => .ok []
  | (k, rs) :: rest =>
    match compileListE (compileRawRule rc false false (strL "FILE")) rs with
    | .error e => .error e
    | .ok crs =>
      match compileFS rc rest with
      | .error e => .error e
      | .ok more => .ok ((k, crs) :: more)

def compile_rules (rc : Bool → Str → Except Str (Str → List Nat))
    (config : Config) : Except Str CompiledRules :=
  match compileFS rc config.FileSpecificRules with
  | .error e => .error e
  | .ok fsc =>
    match compileListE (compileRawRule rc true true (strL "SQL"))
      config.SQLRules with
    | .error e => .error e
    | .ok sqlc =>
      match compileListE (compileRawRule rc true false (strL "PLSQL"))
        config.PLSQLRules with
      | .error e => .error e
      | .ok plsqlc =>
        match compileListE (compileRawRule rc false false (strL "JAVA"))
          config.JavaTypeRules with
        | .error e => .error e
        | .ok javac => .ok ⟨fsc, sqlc, plsqlc, javac⟩

def patternsOk (rc : Bool → Str → Except Str (Str → List Nat))
    (config : Config) : Bool :=
  config.FileSpecificRules.all
      (fun kv => kv.2.all (fun r => exceptOk (rc false r.Detect.Regexp)))
    && config.SQLRules.all (fun r => exceptOk (rc true r.Detect.Regexp))
    && config.PLSQLRules.all (fun r => exceptOk (rc true r.Detect.Regexp))
    && config.JavaTypeRules.all (fun r => exceptOk (rc false r.Detect.Regexp))

/-
Claim theorems.
-/

/-- Claim C7: when XML parsing of the content fails, the structural
rewriter returns exactly the input content (unmodified) together with an
empty Change list and untouched occurrences; it is a total function, so a
malformed dependency descriptor never crashes processing and never
produces structural Changes. -/
theorem apply_pom_parse_error_unchanged (parse : Str → Option XElem)
    (serialize : XElem → Str) (udiff : Str → Str → Str)
    (content file_path : Str) (occurrences : List Occurrence)
    (rules : List Rule) (h : parse content = none) :
    apply_pom_dependency_changes parse serialize udiff content file_path
      occurrences rules = (content, occurrences, []) := by
  simp [apply_pom_dependency_changes, h]

/-- Witness for apply_pom_parse_error_unchanged on concrete malformed
content. -/
theorem apply_pom_parse_error_unchanged_witness :
    apply_pom_dependency_changes (fun _ => none) (fun _ => [])
      (fun _ _ => []) (strL "<oops") (strL "pom.xml") [] [] =
      (strL "<oops", [], []) :=
  apply_pom_parse_error_unchanged (fun _ => none) (fun _ => [])
    (fun _ _ => []) (strL "<oops") (strL "pom.xml") [] [] rfl

theorem process_file_core_after_hash (hash : Str → Str)
    (parse : Str → Option XElem) (serialize : XElem → Str)
    (udiff : Str → Str → Str) (file_path content : Str)
    (sql plsql java : List Rule) (file_specific : List (Str × List Rule)) :
    (process_file_core hash parse serialize udiff file_path content sql
      plsql java file_specific).1.2.2.after_hash =
      some (hash (process_file_core hash parse serialize udiff file_path
        content sql plsql java file_specific).2) := by
  simp only [process_file_core]
  simp
  intro he
  rw [he]

/-- Claim C1: for every file content and compiled rule set, process_file
with dry_run true and with dry_run false on identical input content
returns identical occurrence lists, identical change lists and an
identical file audit; the dry run writes nothing to storage, while the
apply run writes exactly the backup and the rewritten file when the
content changed and nothing otherwise. -/
theorem process_file_dry_run_apply_agree (hash : Str → Str)
    (parse : Str → Option XElem) (serialize : XElem → Str)
    (udiff : Str → Str → Str) (searchMatch : Str → Bool)
    (file_path content : Str) (sql plsql java : List Rule)
    (file_specific : List (Str × List Rule)) (backup_ext : Str) :
    (process_file hash parse serialize udiff searchMatch file_path content
        sql plsql java file_specific backup_ext true).1 =
      (process_file hash parse serialize udiff searchMatch file_path content
        sql plsql java file_specific backup_ext false).1 ∧
    (process_file hash parse serialize udiff searchMatch file_path content
      sql plsql java file_specific backup_ext true).2 = [] ∧
    (∀ a : FileAudit,
      (process_file hash parse serialize udiff searchMatch file_path content
        sql plsql java file_specific backup_ext false).1.2.2 = some a →
      ((a.changed = false →
        (process_file hash parse serialize udiff searchMatch file_path
          content sql plsql java file_specific backup_ext false).2 = []) ∧
       (a.changed = true →
        ∃ nc : Str,
          (process_file hash parse serialize udiff searchMatch file_path
            content sql plsql java file_specific backup_ext false).2 =
            [(with_suffix_model file_path (pathSuffix file_path ++
              backup_ext), content), (file_path, nc)] ∧
          a.after_hash = some (hash nc)))) := by
  cases hmb : searchMatch file_path with
  | false =>
    refine ⟨by simp [process_file, hmb], by simp [process_file, hmb], ?_⟩
    intro a ha
    simp [process_file, hmb] at ha
  | true =>
    refine ⟨by simp [process_file, hmb], by simp [process_file, hmb], ?_⟩
    intro a ha
    simp only [process_file, hmb, eq_self_iff_true, if_true] at ha
    simp at ha
    subst ha
    constructor
    · intro hc
      simp [process_file, hmb, hc]
    · intro hc
      refine ⟨(process_file_core hash parse serialize udiff file_path content
        sql plsql java file_specific).2, by simp [process_file, hmb, hc],
        process_file_core_after_hash hash parse serialize udiff file_path
          content sql plsql java file_specific⟩

/-- Witness for process_file_dry_run_apply_agree at a concrete unchanged
file. -/
theorem process_file_dry_run_apply_agree_witness :
    (process_file (fun s => s) (fun _ => none) (fun _ => [])
        (fun _ _ => []) (fun _ => true) (strL "t.sql") (strL "x") [] [] []
        [] (strL ".bak") true).1 =
      (process_file (fun s => s) (fun _ => none) (fun _ => [])
        (fun _ _ => []) (fun _ => true) (strL "t.sql") (strL "x") [] [] []
        [] (strL ".bak") false).1 ∧
    (process_file (fun s => s) (fun _ => none) (fun _ => [])
      (fun _ _ => []) (fun _ => true) (strL "t.sql") (strL "x") [] [] [] []
      (strL ".bak") true).2 = [] ∧
    (process_file (fun s => s) (fun _ => none) (fun _ => [])
      (fun _ _ => []) (fun _ => true) (strL "t.sql") (strL "x") [] [] [] []
      (strL ".bak") false).2 = [] := by
  have h := process_file_dry_run_apply_agree (fun s => s) (fun _ => none)
    (fun _ => []) (fun _ _ => []) (fun _ => true) (strL "t.sql") (strL "x")
    [] [] [] [] (strL ".bak")
  exact ⟨h.1, h.2.1, ((h.2.2 _ rfl).1 (by decide))⟩

/-- SQL-domain rule of the end-to-end example: NUMBER(1) converts to
BOOLEAN, and the compiled pattern finds the literal occurrences. -/
def sqlRule : Rule :=
  { id := strL "ORA-TO-PG-TYPE"
    severity := strL "INFO"
    description := []
    detect := literalFinder (strL "NUMBER(1)")
    convert_enabled := true
    convert_old := some (strL "NUMBER(1)")
    convert_new := some (strL "BOOLEAN")
    category := none
    domain := some (strL "SQL") }

/-- Occurrence produced in the end-to-end example, as a function of the
external diff renderer. -/
def occC2 (udiff : Str → Str → Str) : Occurrence :=
  { file := strL "t.sql"
    rule_id := strL "ORA-TO-PG-TYPE"
    severity := strL "INFO"
    description := []
    domain := some (strL "SQL")
    category := none
    line := 1
    column := 22
    original_line := strL "CREATE TABLE t (flag NUMBER(1));"
    new_line := strL "CREATE TABLE t (flag BOOLEAN);"
    context_before := []
    context_after := []
    diff := some (udiff (strL "CREATE TABLE t (flag NUMBER(1));")
      (strL "CREATE TABLE t (flag BOOLEAN);")) }

/-- Change produced in the end-to-end example. -/
def chC2 : Change :=
  { file := strL "t.sql"
    rule_id := strL "ORA-TO-PG-TYPE"
    severity := some (strL "INFO")
    description := some []
    domain := some (some (strL "SQL"))
    occurrences := some 1
    old_value := strL "NUMBER(1)"
    new_value := some (strL "BOOLEAN") }

/-- Audit produced in the end-to-end example, as a function of the hash. -/
def aC2 (hash : Str → Str) : FileAudit :=
  { file := strL "t.sql"
    before_hash := some (hash (strL "CREATE TABLE t (flag NUMBER(1));"))
    after_hash := some (hash (strL "CREATE TABLE t (flag BOOLEAN);"))
    changed := true }

/-- Claim C2: with the NUMBER(1) to BOOLEAN rule and a .sql file reading
CREATE TABLE t (flag NUMBER(1));, apply mode backs the file up and
rewrites it to CREATE TABLE t (flag BOOLEAN);, returns exactly one
occurrence whose original line contains NUMBER(1) and whose new line
contains BOOLEAN, exactly one change with occurrence count 1, and a file
audit with changed true whose before hash differs from its after hash
(the hash is the external sha256, assumed collision-free on these two
contents via injectivity). -/
theorem process_file_sql_example (hash : Str → Str)
    (parse : Str → Option XElem) (serialize : XElem → Str)
    (udiff : Str → Str → Str) (searchMatch : Str → Bool)
    (hinj : Function.Injective hash)
    (hm : searchMatch (strL "t.sql") = true) :
    ∃ (occ : Occurrence) (ch : Change) (a : FileAudit),
      process_file hash parse serialize udiff searchMatch (strL "t.sql")
        (strL "CREATE TABLE t (flag NUMBER(1));") [sqlRule] [] [] []
        (strL ".bak") false =
        (([occ], [ch], some a),
         [(strL "t.sql.bak", strL "CREATE TABLE t (flag NUMBER(1));"),
          (strL "t.sql", strL "CREATE TABLE t (flag BOOLEAN);")]) ∧
      pyContains (strL "NUMBER(1)") occ.original_line = true ∧
      pyContains (strL "BOOLEAN") occ.new_line = true ∧
      ch.occurrences = some 1 ∧
      a.changed = true ∧
      a.before_hash ≠ a.after_hash := by
  refine ⟨occC2 udiff, chC2, aC2 hash, ?_,
    by show pyContains (strL "NUMBER(1)")
         (strL "CREATE TABLE t (flag NUMBER(1));") = true; decide,
    by show pyContains (strL "BOOLEAN")
         (strL "CREATE TABLE t (flag BOOLEAN);") = true; decide,
    rfl, rfl, ?_⟩
  · simp only [process_file, hm, eq_self_iff_true, if_true]
    rfl
  · intro hEq
    simp only [aC2, Option.some.injEq] at hEq
    exact absurd (hinj hEq) (by decide)

/-- Witness for process_file_sql_example with the identity as the hash
model and a search gate admitting every file. -/
theorem process_file_sql_example_witness :
    ∃ (occ : Occurrence) (ch : Change) (a : FileAudit),
      process_file (fun s => s) (fun _ => none) (fun _ => [])
        (fun _ _ => []) (fun _ => true) (strL "t.sql")
        (strL "CREATE TABLE t (flag NUMBER(1));") [sqlRule] [] [] []
        (strL ".bak") false =
        (([occ], [ch], some a),
         [(strL "t.sql.bak", strL "CREATE TABLE t (flag NUMBER(1));"),
          (strL "t.sql", strL "CREATE TABLE t (flag BOOLEAN);")]) ∧
      pyContains (strL "NUMBER(1)") occ.original_line = true ∧
      pyContains (strL "BOOLEAN") occ.new_line = true ∧
      ch.occurrences = some 1 ∧
      a.changed = true ∧
      a.before_hash ≠ a.after_hash :=
  process_file_sql_example (fun s => s) (fun _ => none) (fun _ => [])
    (fun _ _ => []) (fun _ => true) (fun _ _ h => h) rfl

theorem conv_step_skip (udiff : Str → Str → Str) (file_path : Str)
    (st : Str × List Occurrence × List Change) (rule : Rule)
    (h : conv_guard rule = false ∨ pyContains (ruleOld rule) st.1 = false) :
    conv_step udiff file_path st rule = st := by
  rcases h with h | h
  · simp [conv_step, h]
  · by_cases hg : conv_guard rule = false
    · simp [conv_step, hg]
    · simp [conv_step, hg, h]

theorem conv_pass_id (udiff : Str → Str → Str) (file_path : Str)
    (rules : List Rule) :
    ∀ (c : Str) (occs : List Occurrence) (chs : List Change),
    (∀ r ∈ rules, conv_guard r = true → pyContains (ruleOld r) c = false) →
    rules.foldl (conv_step udiff file_path) (c, occs, chs) =
      (c, occs, chs) := by
  induction rules with
  | nil => intro c occs chs _; rfl
  | cons r rest ih =>
    intro c occs chs h
    have h1 : conv_step udiff file_path (c, occs, chs) r = (c, occs, chs) := by
      by_cases hg : conv_guard r = true
      · exact conv_step_skip _ _ _ _
          (Or.inr (h r (List.mem_cons_self r rest) hg))
      · exact conv_step_skip _ _ _ _ (Or.inl (by simpa using hg))
    rw [List.foldl_cons, h1]
    exact ih c occs chs (fun r2 hr2 => h r2 (List.mem_cons_of_mem r hr2))

/-- Rule showing that a conversion can reintroduce its own old value. -/
def ruleC3 : Rule :=
  { id := strL "GROWING"
    severity := strL "INFO"
    description := []
    detect := fun _ => []
    convert_enabled := true
    convert_old := some (strL "a")
    convert_new := some (strL "aa")
    category := none
    domain := some (strL "SQL") }

/-- Claim C3 counterexample: with the single enabled rule old "a", new
"aa", the first conversion pass turns content "a" into "aa"; the old
value "a" still occurs in the result, and a second pass over that result
emits a further Change and changes the content again, so the conversion
pass is not idempotent and old values can remain after the first pass. -/
theorem apply_conversions_not_idempotent_cex :
    (apply_conversions (fun _ => none) (fun _ => []) (fun _ _ => [])
        (strL "a") [ruleC3] (strL "x.sql") []).1 = strL "aa" ∧
    pyContains (strL "a") (strL "aa") = true ∧
    (apply_conversions (fun _ => none) (fun _ => []) (fun _ _ => [])
        (strL "aa") [ruleC3] (strL "x.sql") []).2.2 ≠ [] ∧
    (apply_conversions (fun _ => none) (fun _ => []) (fun _ _ => [])
        (strL "aa") [ruleC3] (strL "x.sql") []).1 ≠ strL "aa" := by
  refine ⟨by decide, by decide, by decide, by decide⟩

/-- Claim C3 (amended): a second run of the conversion pass over the first
output of the first pass emits zero Changes and leaves content and
occurrences unchanged provided no old value of an enabled rule occurs
in that output (for
files outside the structural-descriptor path); in general a rule whose new
value reintroduces an old value defeats idempotence, as the counterexample
shows. -/
theorem apply_conversions_second_pass_no_old (parse : Str → Option XElem)
    (serialize : XElem → Str) (udiff : Str → Str → Str)
    (content file_path : Str) (rules : List Rule) (occs : List Occurrence)
    (hfp : strEndsWith file_path (strL "pom.xml") = false)
    (h : ∀ r ∈ rules, conv_guard r = true →
      pyContains (ruleOld r)
        (apply_conversions parse serialize udiff content rules file_path
          occs).1 = false) :
    apply_conversions parse serialize udiff
        (apply_conversions parse serialize udiff content rules file_path
          occs).1 rules file_path
        (apply_conversions parse serialize udiff content rules file_path
          occs).2.1 =
      ((apply_conversions parse serialize udiff content rules file_path
          occs).1,
       (apply_conversions parse serialize udiff content rules file_path
          occs).2.1, []) := by
  have key : ∀ (c2 : Str) (o2 : List Occurrence),
      (∀ r ∈ rules, conv_guard r = true →
        pyContains (ruleOld r) c2 = false) →
      apply_conversions parse serialize udiff c2 rules file_path o2 =
        (c2, o2, []) := by
    intro c2 o2 hh
    show rules.foldl (conv_step udiff file_path)
        (if strEndsWith file_path (strL "pom.xml") = true then
          apply_pom_dependency_changes parse serialize udiff c2 file_path
            o2 rules
        else (c2, o2, ([] : List Change))) = (c2, o2, [])
    rw [if_neg (by simp [hfp])]
    exact conv_pass_id udiff file_path rules c2 o2 [] hh
  exact key _ _ h

/-- Rule whose new value does not reintroduce any old value. -/
def ruleC3w : Rule :=
  { id := strL "PLAIN"
    severity := strL "INFO"
    description := []
    detect := fun _ => []
    convert_enabled := true
    convert_old := some (strL "a")
    convert_new := some (strL "b")
    category := none
    domain := some (strL "SQL") }

/-- Witness for apply_conversions_second_pass_no_old on a concrete rule
set whose first pass removes every old value. -/
theorem apply_conversions_second_pass_no_old_witness :
    apply_conversions (fun _ => none) (fun _ => []) (fun _ _ => [])
        ((apply_conversions (fun _ => none) (fun _ => []) (fun _ _ => [])
          (strL "a") [ruleC3w] (strL "x.sql") []).1) [ruleC3w]
        (strL "x.sql")
        ((apply_conversions (fun _ => none) (fun _ => []) (fun _ _ => [])
          (strL "a") [ruleC3w] (strL "x.sql") []).2.1) =
      ((apply_conversions (fun _ => none) (fun _ => []) (fun _ _ => [])
          (strL "a") [ruleC3w] (strL "x.sql") []).1,
       (apply_conversions (fun _ => none) (fun _ => []) (fun _ _ => [])
          (strL "a") [ruleC3w] (strL "x.sql") []).2.1, []) :=
  apply_conversions_second_pass_no_old (fun _ => none) (fun _ => [])
    (fun _ _ => []) (strL "a") (strL "x.sql") [ruleC3w] [] (by decide)
    (by decide)

theorem conv_occ_update_no_hit (udiff : Str → Str → Str) (rule : Rule)
    (occ : Occurrence) (h : occ.rule_id ≠ rule.id) :
    conv_occ_update udiff rule occ = occ := by
  simp [conv_occ_update, h]

theorem conv_fold_occs (udiff : Str → Str → Str) (file_path : Str)
    (rules : List Rule) :
    ∀ (c : Str) (occs : List Occurrence) (chs : List Change),
    (rules.foldl (conv_step udiff file_path) (c, occs, chs)).2.1 =
      occs.map (conv_occ_final udiff rules c) := by
  induction rules with
  | nil => intro c occs chs; simp [conv_occ_final]
  | cons r rest ih =>
    intro c occs chs
    rw [List.foldl_cons]
    by_cases hg : conv_guard r = true
    · by_cases hc : pyContains (ruleOld r) c = true
      · have hstep : conv_step udiff file_path (c, occs, chs) r =
            (pyReplace c (ruleOld r) (ruleNew r),
             occs.map (conv_occ_update udiff r),
             chs ++ [{ file := file_path, rule_id := r.id,
                       severity := some r.severity,
                       description := some r.description,
                       domain := some r.domain,
                       occurrences := some (pyCount
                         (pyReplace c (ruleOld r) (ruleNew r)) (ruleNew r)),
                       old_value := ruleOld r,
                       new_value := some (ruleNew r) }]) := by
          simp [conv_step, hg, hc]
        rw [hstep, ih, List.map_map]
        have hfun : conv_occ_final udiff rest
              (pyReplace c (ruleOld r) (ruleNew r)) ∘
                conv_occ_update udiff r =
            conv_occ_final udiff (r :: rest) c := by
          funext occ
          simp [conv_occ_final, hg, hc]
        rw [hfun]
      · rw [conv_step_skip _ _ _ _ (Or.inr (by simpa using hc)), ih]
        have hfun : conv_occ_final udiff (r :: rest) c =
            conv_occ_final udiff rest c := by
          funext occ
          simp [conv_occ_final, hg, hc]
        rw [hfun]
    · rw [conv_step_skip _ _ _ _ (Or.inl (by simpa using hg)), ih]
      have hfun : conv_occ_final udiff (r :: rest) c =
          conv_occ_final udiff rest c := by
        funext occ
        simp [conv_occ_final, hg]
      rw [hfun]

theorem conv_occ_final_ne_rules (udiff : Str → Str → Str)
    (rules : List Rule) :
    ∀ (c : Str) (occ : Occurrence),
    (∀ r ∈ rules, occ.rule_id ≠ r.id) →
    conv_occ_final udiff rules c occ = occ := by
  induction rules with
  | nil => intro c occ _; rfl
  | cons r rest ih =>
    intro c occ h
    have hne : occ.rule_id ≠ r.id := h r (List.mem_cons_self r rest)
    have hrest : ∀ r2 ∈ rest, occ.rule_id ≠ r2.id :=
      fun r2 hr2 => h r2 (List.mem_cons_of_mem r hr2)
    by_cases hgc : (conv_guard r && pyContains (ruleOld r) c) = true
    · simp only [conv_occ_final, hgc, if_true]
      rw [conv_occ_update_no_hit udiff r occ hne]
      exact ih _ occ hrest
    · simp only [conv_occ_final, hgc, if_false]
      exact ih _ occ hrest

/-- Result of the update of the generic rewriter on an occurrence it hits. -/
def occHit (udiff : Str → Str → Str) (o n : Str) (occ : Occurrence) :
    Occurrence :=
  { occ with
      new_line := pyReplace occ.original_line o n
      diff := some (udiff occ.original_line
        (pyReplace occ.original_line o n)) }

theorem occHit_rule_id (udiff : Str → Str → Str) (o n : Str)
    (occ : Occurrence) : (occHit udiff o n occ).rule_id = occ.rule_id := rfl

theorem conv_occ_final_hits (udiff : Str → Str → Str) (o n : Str)
    (rule : Rule) (post : List Rule)
    (hg : conv_guard rule = true) (ho : rule.convert_old = some o)
    (hn : rule.convert_new = some n) :
    ∀ (pre : List Rule) (c : Str) (occ : Occurrence),
    ((pre ++ rule :: post).map Rule.id).Nodup →
    pyContains o (conv_content pre c) = true →
    occ.rule_id = rule.id →
    pyContains o occ.original_line = true →
    (conv_occ_final udiff (pre ++ rule :: post) c occ).new_line =
        pyReplace occ.original_line o n ∧
      (conv_occ_final udiff (pre ++ rule :: post) c occ).original_line =
        occ.original_line := by
  intro pre
  induction pre with
  | nil =>
    intro c occ hnd hcont hrid hline
    have hoo : ruleOld rule = o := by simp [ruleOld, ho]
    have hnn : ruleNew rule = n := by simp [ruleNew, hn]
    have hcc : pyContains (ruleOld rule) c = true := by
      rw [hoo]
      simpa [conv_content] using hcont
    have hupd : conv_occ_update udiff rule occ = occHit udiff o n occ := by
      rw [conv_occ_update, if_pos hrid]
      simp [occHit, hoo, hnn, hline]
    have hnotin : ∀ r2 ∈ post, (occHit udiff o n occ).rule_id ≠ r2.id := by
      intro r2 hr2 hEq
      have hnd2 := hnd
      simp only [List.nil_append, List.map_cons, List.nodup_cons] at hnd2
      rw [occHit_rule_id, hrid] at hEq
      exact hnd2.1 (hEq ▸ List.mem_map_of_mem Rule.id hr2)
    simp only [List.nil_append, conv_occ_final, hg, hcc, Bool.and_self,
      if_true]
    rw [hupd, conv_occ_final_ne_rules udiff post _ _ hnotin]
    exact ⟨rfl, rfl⟩
  | cons p pre2 ih =>
    intro c occ hnd hcont hrid hline
    have hpne : p.id ≠ rule.id := by
      intro hEq
      have hnd2 := hnd
      simp only [List.cons_append, List.map_cons, List.nodup_cons] at hnd2
      exact hnd2.1 (hEq ▸ List.mem_map_of_mem Rule.id
        (List.mem_append_right pre2 (List.mem_cons_self rule post)))
    have hone : occ.rule_id ≠ p.id := by
      rw [hrid]
      exact fun hEq => hpne hEq.symm
    have hndtail : ((pre2 ++ rule :: post).map Rule.id).Nodup := by
      have hnd2 := hnd
      simp only [List.cons_append, List.map_cons, List.nodup_cons] at hnd2
      exact hnd2.2
    by_cases hgc : (conv_guard p && pyContains (ruleOld p) c) = true
    · have hcont2 : pyContains o
          (conv_content pre2 (pyReplace c (ruleOld p) (ruleNew p))) =
          true := by
        have hcc2 : conv_content (p :: pre2) c =
            conv_content pre2 (pyReplace c (ruleOld p) (ruleNew p)) := by
          simp [conv_content, hgc]
        rw [← hcc2]
        exact hcont
      simp only [List.cons_append, conv_occ_final, hgc, if_true]
      rw [conv_occ_update_no_hit udiff p occ hone]
      exact ih _ occ hndtail hcont2 hrid hline
    · have hcont2 : pyContains o (conv_content pre2 c) = true := by
        have hcc2 : conv_content (p :: pre2) c = conv_content pre2 c := by
          simp [conv_content, hgc]
        rw [← hcc2]
        exact hcont
      simp only [List.cons_append, conv_occ_final, hgc, if_false]
      exact ih _ occ hndtail hcont2 hrid hline

theorem detect_new_line_inv (content : Str) (rules : List Rule) (fp : Str) :
    ∀ occ ∈ detect_in_content content rules fp,
      occ.new_line = occ.original_line ∧ occ.diff = none := by
  intro occ h
  simp only [detect_in_content, List.mem_flatten, List.mem_map] at h
  obtain ⟨l, ⟨r, hr, rfl⟩, hocc⟩ := h
  obtain ⟨st, hst, rfl⟩ := List.mem_map.mp hocc
  exact ⟨rfl, rfl⟩

/-- Detect-only rule of the C5 counterexample. -/
def ruleC5a : Rule :=
  { id := strL "R1"
    severity := strL "INFO"
    description := []
    detect := literalFinder (strL "foo")
    convert_enabled := false
    convert_old := none
    convert_new := none
    category := none
    domain := some (strL "SQL") }

/-- Enabled conversion rule of the C5 counterexample, detecting nothing
itself. -/
def ruleC5b : Rule :=
  { id := strL "R2"
    severity := strL "INFO"
    description := []
    detect := fun _ => []
    convert_enabled := true
    convert_old := some (strL "foo")
    convert_new := some (strL "bar")
    category := none
    domain := some (strL "SQL") }

/-- Claim C5 counterexample: on content "foo" the detector yields one
occurrence for rule R1 with original line "foo"; rule R2 is enabled, its
old value "foo" occurs in that original line, and the conversion pass
rewrites the content, yet the new line of the occurrence stays "foo" — the
pass updates an occurrence only through the rule matching its own rule
id, not through every enabled rule whose old value appears in the line. -/
theorem occurrence_new_line_stale_cex :
    ruleC5b.convert_enabled = true ∧
    ((apply_conversions (fun _ => none) (fun _ => []) (fun _ _ => [])
        (strL "foo") [ruleC5a, ruleC5b] (strL "x.sql")
        (detect_in_content (strL "foo") [ruleC5a, ruleC5b]
          (strL "x.sql"))).2.1).map Occurrence.original_line =
      [strL "foo"] ∧
    ((apply_conversions (fun _ => none) (fun _ => []) (fun _ _ => [])
        (strL "foo") [ruleC5a, ruleC5b] (strL "x.sql")
        (detect_in_content (strL "foo") [ruleC5a, ruleC5b]
          (strL "x.sql"))).2.1).map Occurrence.new_line = [strL "foo"] ∧
    pyContains (strL "foo") (strL "foo") = true ∧
    strL "foo" ≠ pyReplace (strL "foo") (strL "foo") (strL "bar") := by
  refine ⟨rfl, by decide, by decide, by decide, by decide⟩

/-- Claim C5 (amended): every occurrence produced by the detector has
new_line equal to original_line and a null diff.  After the conversion
pass over a non-descriptor file, an occurrence is updated only by the
rule whose id equals its rule_id: when that rule passes the conversion
guard, its old value still occurs in the running content at the turn of
the rule, and the old value occurs in the original line of the
occurrence, the corresponding occurrence in the output of the pass
keeps its original line
and carries new_line equal to the original line with the old-to-new
substitution applied.  A rule with a different id never updates the
occurrence, and a rule whose old value was already removed from the
running content skips it, as the counterexample shows. -/
theorem occurrence_new_line_contract (parse : Str → Option XElem)
    (serialize : XElem → Str) (udiff : Str → Str → Str)
    (content file_path : Str) (pre post : List Rule) (rule : Rule)
    (o n : Str) (occ : Occurrence)
    (hfp : strEndsWith file_path (strL "pom.xml") = false)
    (hnd : ((pre ++ rule :: post).map Rule.id).Nodup)
    (hg : conv_guard rule = true) (ho : rule.convert_old = some o)
    (hn : rule.convert_new = some n)
    (hcont : pyContains o (conv_content pre content) = true)
    (hocc : occ ∈ detect_in_content content (pre ++ rule :: post) file_path)
    (hrid : occ.rule_id = rule.id)
    (hline : pyContains o occ.original_line = true) :
    occ.new_line = occ.original_line ∧ occ.diff = none ∧
    conv_occ_final udiff (pre ++ rule :: post) content occ ∈
      (apply_conversions parse serialize udiff content (pre ++ rule :: post)
        file_path
        (detect_in_content content (pre ++ rule :: post) file_path)).2.1 ∧
    (conv_occ_final udiff (pre ++ rule :: post) content occ).original_line =
      occ.original_line ∧
    (conv_occ_final udiff (pre ++ rule :: post) content occ).new_line =
      pyReplace occ.original_line o n := by
  obtain ⟨hinv1, hinv2⟩ := detect_new_line_inv content (pre ++ rule :: post)
    file_path occ hocc
  have hconv : (apply_conversions parse serialize udiff content
      (pre ++ rule :: post) file_path
      (detect_in_content content (pre ++ rule :: post) file_path)).2.1 =
      (detect_in_content content (pre ++ rule :: post) file_path).map
        (conv_occ_final udiff (pre ++ rule :: post) content) := by
    show ((pre ++ rule :: post).foldl (conv_step udiff file_path)
        (if strEndsWith file_path (strL "pom.xml") = true then
          apply_pom_dependency_changes parse serialize udiff content
            file_path
            (detect_in_content content (pre ++ rule :: post) file_path)
            (pre ++ rule :: post)
        else (content,
          detect_in_content content (pre ++ rule :: post) file_path,
          ([] : List Change)))).2.1 = _
    rw [if_neg (by simp [hfp])]
    exact conv_fold_occs udiff file_path (pre ++ rule :: post) content _ []
  obtain ⟨hnew, horig⟩ := conv_occ_final_hits udiff o n rule post hg ho hn
    pre content occ hnd hcont hrid hline
  exact ⟨hinv1, hinv2, hconv ▸ List.mem_map_of_mem _ hocc, horig, hnew⟩

/-- Rule used by the C5 witness: detects and converts the literal foo. -/
def ruleC5w : Rule :=
  { id := strL "RW"
    severity := strL "INFO"
    description := []
    detect := literalFinder (strL "foo")
    convert_enabled := true
    convert_old := some (strL "foo")
    convert_new := some (strL "bar")
    category := none
    domain := some (strL "SQL") }

/-- Occurrence the detector produces in the C5 witness scenario. -/
def occC5w : Occurrence :=
  { file := strL "x.sql"
    rule_id := strL "RW"
    severity := strL "INFO"
    description := []
    domain := some (strL "SQL")
    category := none
    line := 1
    column := 1
    original_line := strL "foo"
    new_line := strL "foo"
    context_before := []
    context_after := []
    diff := none }

/-- Witness for occurrence_new_line_contract at a concrete file. -/
theorem occurrence_new_line_contract_witness :
    occC5w.new_line = occC5w.original_line ∧ occC5w.diff = none ∧
    conv_occ_final (fun _ _ => []) [ruleC5w] (strL "foo") occC5w ∈
      (apply_conversions (fun _ => none) (fun _ => []) (fun _ _ => [])
        (strL "foo") [ruleC5w] (strL "x.sql")
        (detect_in_content (strL "foo") [ruleC5w] (strL "x.sql"))).2.1 ∧
    (conv_occ_final (fun _ _ => []) [ruleC5w]
      (strL "foo") occC5w).original_line = occC5w.original_line ∧
    (conv_occ_final (fun _ _ => []) [ruleC5w] (strL "foo") occC5w).new_line =
      pyReplace occC5w.original_line (strL "foo") (strL "bar") :=
  occurrence_new_line_contract (fun _ => none) (fun _ => [])
    (fun _ _ => []) (strL "foo") (strL "x.sql") [] [] ruleC5w (strL "foo")
    (strL "bar") occC5w (by decide) (by decide) (by decide) rfl rfl
    (by decide) (by decide) rfl (by decide)

theorem strStartsWith_iff (p : Str) : ∀ s : Str,
    strStartsWith s p = true ↔ ∃ t, p ++ t = s := by
  induction p with
  | nil =>
    intro s
    constructor
    · intro _
      exact ⟨s, rfl⟩
    · intro _
      cases s <;> rfl
  | cons pc pt ih =>
    intro s
    cases s with
    | nil =>
      simp [strStartsWith]
    | cons c s2 =>
      by_cases hc : c = pc
      · subst hc
        simp [strStartsWith, ih s2]
      · simp [strStartsWith, hc]
        intro hEq
        exact absurd hEq.symm hc

theorem pomVer_not_pomAid (s : Str)
    (h : strStartsWith s pomVerPre = true) :
    strStartsWith s pomAidPre = false := by
  cases hx : strStartsWith s pomAidPre with
  | false => rfl
  | true =>
    obtain ⟨t1, h1⟩ := (strStartsWith_iff pomVerPre s).mp h
    obtain ⟨t2, h2⟩ := (strStartsWith_iff pomAidPre s).mp hx
    rw [← h1] at h2
    have h5 := congrArg (List.take 11) h2
    rw [List.take_append_of_le_length (by decide),
      List.take_append_of_le_length (by decide)] at h5
    exact absurd h5 (by decide)

theorem pom_aid_step_changes (file_path : Str) (serialize : XElem → Str)
    (udiff : Str → Str → Str) (aid0 : Option XElem) (aid_text : Str)
    (st : Option Str × Option Str × List Occurrence × List Change)
    (rule : Rule) :
    ∀ c ∈ (pom_aid_step file_path serialize udiff aid0 aid_text st
        rule).2.2.2,
      c ∈ st.2.2.2 ∨
      (c.rule_id = rule.id ∧
        strStartsWith (pyLower rule.id) pomAidPre = true) := by
  intro c hc
  unfold pom_aid_step at hc
  split at hc
  · rename_i a o
    split at hc
    · rename_i hcond
      simp only [List.mem_append, List.mem_singleton] at hc
      rcases hc with hc | hc
      · exact Or.inl hc
      · subst hc
        refine Or.inr ⟨rfl, ?_⟩
        simp only [Bool.and_eq_true] at hcond
        exact hcond.1.1
    · exact Or.inl hc
  · exact Or.inl hc

theorem pom_ver_step_changes (file_path : Str) (serialize : XElem → Str)
    (udiff : Str → Str → Str) (rules : List Rule) (ver0 : Option XElem)
    (aid_text ver_text : Str)
    (st : Option Str × Option Str × List Occurrence × List Change)
    (rule : Rule) :
    ∀ c ∈ (pom_ver_step file_path serialize udiff rules ver0 aid_text
        ver_text st rule).2.2.2,
      c ∈ st.2.2.2 ∨
      ∃ r ∈ rules, strStartsWith (pyLower r.id) pomAidPre = true ∧
        r.convert_old = some aid_text := by
  intro c hc
  unfold pom_ver_step at hc
  split at hc
  · rename_i v o
    split at hc
    · rename_i hcond
      simp only [Bool.and_eq_true, List.any_eq_true] at hcond
      obtain ⟨r, hr, hrc⟩ := hcond.1.2
      exact Or.inr ⟨r, hr, hrc.1, of_decide_eq_true hrc.2⟩
    · exact Or.inl hc
  · exact Or.inl hc

/-- Claim C4: in the structural rewriter, a change recorded for a rule
whose id signals a version conversion exists only if some artifact-id
rule in the same rule set has old value equal to the stripped
artifact-id text of that dependency — a version change is never applied to a
dependency whose artifact-id was not itself targeted, even when another
dependency shares the same old version string, since the gate reads only
the artifact-id of this very dependency. -/
theorem pom_version_requires_artifact_rule (file_path : Str)
    (serialize : XElem → Str) (udiff : Str → Str → Str)
    (rules : List Rule) (ns : Str) (dep : XElem) (occs : List Occurrence)
    (c : Change)
    (hc : c ∈ (processDep file_path serialize udiff rules ns dep occs).2.2)
    (hv : strStartsWith (pyLower c.rule_id) pomVerPre = true) :
    ∃ r ∈ rules, strStartsWith (pyLower r.id) pomAidPre = true ∧
      r.convert_old = some (elemTextStrip
        (findChild (ns ++ strL "artifactId") dep.children)) := by
  set aid0 := findChild (ns ++ strL "artifactId") dep.children with haid0
  set at2 := elemTextStrip aid0 with hat2
  have main : ∀ (rs : List Rule)
      (st0 : Option Str × Option Str × List Occurrence × List Change),
      (∀ c2 ∈ st0.2.2.2,
        strStartsWith (pyLower c2.rule_id) pomVerPre = true →
        ∃ r ∈ rules, strStartsWith (pyLower r.id) pomAidPre = true ∧
          r.convert_old = some at2) →
      ∀ c2 ∈ (rs.foldl (pom_rule_step file_path serialize udiff rules aid0
          (findChild (ns ++ strL "version") dep.children) at2
          (elemTextStrip (findChild (ns ++ strL "version") dep.children)))
          st0).2.2.2,
        strStartsWith (pyLower c2.rule_id) pomVerPre = true →
        ∃ r ∈ rules, strStartsWith (pyLower r.id) pomAidPre = true ∧
          r.convert_old = some at2 := by
    intro rs
    induction rs with
    | nil => intro st0 h; exact h
    | cons r rest ih =>
      intro st0 h
      rw [List.foldl_cons]
      apply ih
      intro c2 hc2 hv2
      rcases pom_ver_step_changes file_path serialize udiff rules _ at2 _
          (pom_aid_step file_path serialize udiff aid0 at2 st0 r) r c2
          hc2 with hmem | hex
      · rcases pom_aid_step_changes file_path serialize udiff aid0 at2 st0
            r c2 hmem with hmem2 | ⟨hid, haid⟩
        · exact h c2 hmem2 hv2
        · rw [hid] at hv2
          exact absurd haid (by rw [pomVer_not_pomAid _ hv2]; decide)
      · exact hex
  have hc2 : c ∈ ((rules.foldl (pom_rule_step file_path serialize udiff
      rules aid0 (findChild (ns ++ strL "version") dep.children) at2
      (elemTextStrip (findChild (ns ++ strL "version") dep.children)))
      (aid0.bind XElem.text,
       (findChild (ns ++ strL "version") dep.children).bind XElem.text,
       occs, ([] : List Change)))).2.2.2 := by
    simpa [processDep, haid0, hat2] using hc
  exact main rules _ (fun c2 hc2 => absurd hc2 (List.not_mem_nil c2)) c hc2
    hv

/-- Dependency element of the C4 witness. -/
def depC4 : XElem :=
  XElem.node (strL "dependency") none
    [XElem.node (strL "groupId") (some (strL "com.oracle.database.jdbc")) [],
     XElem.node (strL "artifactId") (some (strL "ojdbc11")) [],
     XElem.node (strL "version") (some (strL "21.1")) []]

/-- Artifact-id rule of the C4 witness. -/
def ruleC4a : Rule :=
  { id := strL "POM_ARTIFACTID_OJDBC"
    severity := strL "INFO"
    description := []
    detect := fun _ => []
    convert_enabled := true
    convert_old := some (strL "ojdbc11")
    convert_new := some (strL "postgresql")
    category := none
    domain := some (strL "FILE") }

/-- Version rule of the C4 witness. -/
def ruleC4v : Rule :=
  { id := strL "POM_VERSION_OJDBC"
    severity := strL "INFO"
    description := []
    detect := fun _ => []
    convert_enabled := true
    convert_old := some (strL "21.1")
    convert_new := some (strL "42.7.3")
    category := none
    domain := some (strL "FILE") }

/-- Version change recorded in the C4 witness scenario. -/
def chC4 : Change :=
  { file := strL "pom.xml"
    rule_id := strL "POM_VERSION_OJDBC"
    old_value := strL "21.1"
    new_value := some (strL "42.7.3") }

/-- Witness for pom_version_requires_artifact_rule: the version change on
the ojdbc11 dependency is recorded, and the gate is explained by the
artifact-id rule targeting ojdbc11. -/
theorem pom_version_requires_artifact_rule_witness :
    ∃ r ∈ [ruleC4a, ruleC4v],
      strStartsWith (pyLower r.id) pomAidPre = true ∧
      r.convert_old = some (elemTextStrip
        (findChild (([] : Str) ++ strL "artifactId") depC4.children)) :=
  pom_version_requires_artifact_rule (strL "pom.xml") (fun _ => [])
    (fun _ _ => []) [ruleC4a, ruleC4v] [] depC4 [] chC4 (by decide)
    (by decide)

theorem compileRawRule_ok (rc : Bool → Str → Except Str (Str → List Nat))
    (dotall useCat : Bool) (domain : Str) (r : RawRule) :
    exceptOk (compileRawRule rc dotall useCat domain r) =
      exceptOk (rc dotall r.Detect.Regexp) := by
  cases h : rc dotall r.Detect.Regexp <;>
    simp [compileRawRule, h, exceptOk]

theorem compileRawRule_id (rc : Bool → Str → Except Str (Str → List Nat))
    (dotall useCat : Bool) (domain : Str) (r : RawRule) (cr : Rule)
    (h : compileRawRule rc dotall useCat domain r = Except.ok cr) :
    cr.id = r.ID := by
  cases hr : rc dotall r.Detect.Regexp <;>
    simp [compileRawRule, hr] at h
  rw [← h]

theorem compileListE_ok (rc : Bool → Str → Except Str (Str → List Nat))
    (dotall useCat : Bool) (domain : Str) :
    ∀ rs : List RawRule,
    exceptOk (compileListE (compileRawRule rc dotall useCat domain) rs) =
      rs.all (fun r => exceptOk (rc dotall r.Detect.Regexp)) := by
  intro rs
  induction rs with
  | nil => rfl
  | cons r rest ih =>
    have hok := compileRawRule_ok rc dotall useCat domain r
    cases h1 : compileRawRule rc dotall useCat domain r with
    | error e =>
      rw [h1] at hok
      have hL : compileListE (compileRawRule rc dotall useCat domain)
          (r :: rest) = Except.error e := by
        simp [compileListE, h1]
      rw [hL, List.all_cons, ← hok]
      simp [exceptOk]
    | ok cr =>
      rw [h1] at hok
      cases h2 : compileListE (compileRawRule rc dotall useCat domain)
          rest with
      | error e2 =>
        rw [h2] at ih
        have hL : compileListE (compileRawRule rc dotall useCat domain)
            (r :: rest) = Except.error e2 := by
          simp [compileListE, h1, h2]
        rw [hL, List.all_cons, ← hok, ← ih]
        simp [exceptOk]
      | ok crs =>
        rw [h2] at ih
        have hL : compileListE (compileRawRule rc dotall useCat domain)
            (r :: rest) = Except.ok (cr :: crs) := by
          simp [compileListE, h1, h2]
        rw [hL, List.all_cons, ← hok, ← ih]
        simp [exceptOk]

theorem compileListE_ids (rc : Bool → Str → Except Str (Str → List Nat))
    (dotall useCat : Bool) (domain : Str) :
    ∀ (rs : List RawRule) (out : List Rule),
    compileListE (compileRawRule rc dotall useCat domain) rs =
      Except.ok out →
    out.map Rule.id = rs.map RawRule.ID := by
  intro rs
  induction rs with
  | nil =>
    intro out h
    simp only [compileListE, Except.ok.injEq] at h
    rw [← h]
    rfl
  | cons r rest ih =>
    intro out h
    cases h1 : compileRawRule rc dotall useCat domain r with
    | error e => simp [compileListE, h1] at h
    | ok cr =>
      cases h2 : compileListE (compileRawRule rc dotall useCat domain)
          rest with
      | error e => simp [compileListE, h1, h2] at h
      | ok crs =>
        simp only [compileListE, h1, h2, Except.ok.injEq] at h
        rw [← h]
        simp [compileRawRule_id rc dotall useCat domain r cr h1, ih crs h2]

theorem compileFS_ok (rc : Bool → Str → Except Str (Str → List Nat)) :
    ∀ m : List (Str × List RawRule),
    exceptOk (compileFS rc m) =
      m.all (fun kv =>
        kv.2.all (fun r => exceptOk (rc false r.Detect.Regexp))) := by
  intro m
  induction m with
  | nil => rfl
  | cons kv rest ih =>
    obtain ⟨k, rs⟩ := kv
    have hok := compileListE_ok rc false false (strL "FILE") rs
    cases h1 : compileListE (compileRawRule rc false false (strL "FILE"))
        rs with
    | error e =>
      rw [h1] at hok
      have hL : compileFS rc ((k, rs) :: rest) = Except.error e := by
        simp [compileFS, h1]
      rw [hL, List.all_cons, ← hok]
      simp [exceptOk]
    | ok crs =>
      rw [h1] at hok
      cases h2 : compileFS rc rest with
      | error e2 =>
        rw [h2] at ih
        have hL : compileFS rc ((k, rs) :: rest) = Except.error e2 := by
          simp [compileFS, h1, h2]
        rw [hL, List.all_cons, ← hok, ← ih]
        simp [exceptOk]
      | ok more =>
        rw [h2] at ih
        have hL : compileFS rc ((k, rs) :: rest) =
            Except.ok ((k, crs) :: more) := by
          simp [compileFS, h1, h2]
        rw [hL, List.all_cons, ← hok, ← ih]
        simp [exceptOk]

theorem compileFS_ids (rc : Bool → Str → Except Str (Str → List Nat)) :
    ∀ (m : List (Str × List RawRule)) (out : List (Str × List Rule)),
    compileFS rc m = Except.ok out →
    out.map (fun kv => (kv.1, kv.2.map Rule.id)) =
      m.map (fun kv => (kv.1, kv.2.map RawRule.ID)) := by
  intro m
  induction m with
  | nil =>
    intro out h
    simp only [compileFS, Except.ok.injEq] at h
    rw [← h]
    rfl
  | cons kv rest ih =>
    obtain ⟨k, rs⟩ := kv
    intro out h
    cases h1 : compileListE (compileRawRule rc false false (strL "FILE"))
        rs with
    | error e => simp [compileFS, h1] at h
    | ok crs =>
      cases h2 : compileFS rc rest with
      | error e => simp [compileFS, h1, h2] at h
      | ok more =>
        simp only [compileFS, h1, h2, Except.ok.injEq] at h
        rw [← h]
        simp [compileListE_ids rc false false (strL "FILE") rs crs h1,
          ih more h2]

/-- Claim C8 (amended): rule compilation is fail-fast — it succeeds exactly
when every detection pattern of every collection compiles, and on success
every collection is carried over completely and in order, so no rule of a
collection is silently dropped; on an invalid pattern the whole run fails
with the error returned by the external pattern compiler, which, as the
counterexample shows, does not identify the id of the offending rule,
because
the engine hands the compiler only the pattern string. -/
theorem compile_rules_fail_fast (rc : Bool → Str → Except Str (Str → List Nat))
    (config : Config) :
    exceptOk (compile_rules rc config) = patternsOk rc config ∧
    ∀ out : CompiledRules, compile_rules rc config = Except.ok out →
      out.sql.map Rule.id = config.SQLRules.map RawRule.ID ∧
      out.plsql.map Rule.id = config.PLSQLRules.map RawRule.ID ∧
      out.java.map Rule.id = config.JavaTypeRules.map RawRule.ID ∧
      out.file_specific.map (fun kv => (kv.1, kv.2.map Rule.id)) =
        config.FileSpecificRules.map
          (fun kv => (kv.1, kv.2.map RawRule.ID)) := by
  constructor
  · simp only [patternsOk, ← compileFS_ok rc config.FileSpecificRules,
      ← compileListE_ok rc true true (strL "SQL") config.SQLRules,
      ← compileListE_ok rc true false (strL "PLSQL") config.PLSQLRules,
      ← compileListE_ok rc false false (strL "JAVA") config.JavaTypeRules]
    cases h1 : compileFS rc config.FileSpecificRules <;>
      cases h2 : compileListE (compileRawRule rc true true (strL "SQL"))
        config.SQLRules <;>
      cases h3 : compileListE (compileRawRule rc true false (strL "PLSQL"))
        config.PLSQLRules <;>
      cases h4 : compileListE (compileRawRule rc false false (strL "JAVA"))
        config.JavaTypeRules <;>
      simp [compile_rules, h1, h2, h3, h4, exceptOk]
  · intro out h
    cases h1 : compileFS rc config.FileSpecificRules with
    | error e => simp [compile_rules, h1] at h
    | ok fsc =>
      cases h2 : compileListE (compileRawRule rc true true (strL "SQL"))
          config.SQLRules with
      | error e => simp [compile_rules, h1, h2] at h
      | ok sqlc =>
        cases h3 : compileListE (compileRawRule rc true false
            (strL "PLSQL")) config.PLSQLRules with
        | error e => simp [compile_rules, h1, h2, h3] at h
        | ok plsqlc =>
          cases h4 : compileListE (compileRawRule rc false false
              (strL "JAVA")) config.JavaTypeRules with
          | error e => simp [compile_rules, h1, h2, h3, h4] at h
          | ok javac =>
            simp only [compile_rules, h1, h2, h3, h4,
              Except.ok.injEq] at h
            rw [← h]
            exact ⟨compileListE_ids rc true true (strL "SQL") _ _ h2,
              compileListE_ids rc true false (strL "PLSQL") _ _ h3,
              compileListE_ids rc false false (strL "JAVA") _ _ h4,
              compileFS_ids rc _ _ h1⟩

/-- Pattern-compiler model failing on one concrete pattern with an error
carrying only pattern information, as re.error does. -/
def rcompileStub : Bool → Str → Except Str (Str → List Nat) :=
  fun _ pat =>
    if pat = strL "(" then
      Except.error (strL "missing parenthesis, unterminated subpattern")
    else Except.ok (fun _ => [])

/-- Configuration with one bad SQL rule named RULE-A. -/
def cfgC8a : Config :=
  { SQLRules := [{ ID := strL "RULE-A", Detect := { Regexp := strL "(" } }] }

/-- Configuration with one bad SQL rule named RULE-B. -/
def cfgC8b : Config :=
  { SQLRules := [{ ID := strL "RULE-B", Detect := { Regexp := strL "(" } }] }

/-- Claim C8 counterexample: two configurations differing only in the
id of the offending rule produce byte-identical compilation errors, so
the raised error cannot identify that id — the engine passes
only the pattern string to the pattern compiler. -/
theorem compile_rules_error_lacks_rule_id_cex :
    compile_rules rcompileStub cfgC8a =
      Except.error (strL "missing parenthesis, unterminated subpattern") ∧
    compile_rules rcompileStub cfgC8b =
      Except.error (strL "missing parenthesis, unterminated subpattern") ∧
    cfgC8a.SQLRules.map RawRule.ID ≠ cfgC8b.SQLRules.map RawRule.ID := by
  refine ⟨rfl, rfl, by decide⟩

/-- Configuration whose single SQL rule compiles. -/
def cfgC8ok : Config :=
  { SQLRules := [{ ID := strL "GOOD", Detect := { Regexp := strL "x" } }] }

/-- Compiled output for cfgC8ok under rcompileStub. -/
def outC8 : CompiledRules :=
  { file_specific := []
    sql := [{ id := strL "GOOD"
              severity := strL "INFO"
              description := []
              detect := fun _ => []
              convert_enabled := false
              convert_old := none
              convert_new := none
              category := none
              domain := some (strL "SQL") }]
    plsql := []
    java := [] }

/-- Witness for compile_rules_fail_fast on a compiling configuration. -/
theorem compile_rules_fail_fast_witness :
    exceptOk (compile_rules rcompileStub cfgC8ok) =
      patternsOk rcompileStub cfgC8ok ∧
    outC8.sql.map Rule.id = cfgC8ok.SQLRules.map RawRule.ID :=
  ⟨(compile_rules_fail_fast rcompileStub cfgC8ok).1,
   ((compile_rules_fail_fast rcompileStub cfgC8ok).2 outC8 rfl).1⟩

/-- Claim C9 (code evaluation at the failing input): the scan loop wraps
per-file processing in no error handler, so with two eligible files where
reading the first raises, the whole scan aborts with the error and the
results of the second file are lost — scanning the second file alone
yields
one occurrence. -/
theorem scan_files_error_aborts_rest :
    scan_files (fun s => s) (fun _ => none) (fun _ => []) (fun _ _ => [])
        (fun _ => true) [sqlRule] [] [] [] (strL ".bak") true
        [(strL "a.sql", Except.error ()),
         (strL "b.sql",
          Except.ok (strL "CREATE TABLE t (flag NUMBER(1));"))] =
      Except.error () ∧
    (scan_files (fun s => s) (fun _ => none) (fun _ => []) (fun _ _ => [])
        (fun _ => true) [sqlRule] [] [] [] (strL ".bak") true
        [(strL "b.sql",
          Except.ok (strL "CREATE TABLE t (flag NUMBER(1));"))]).toOption.map
      (fun r => r.1.length) = some 1 := by
  refine ⟨rfl, rfl⟩

theorem setFirstChildText_self (t : Str) :
    ∀ (cs : List XElem) (e : XElem), findChild t cs = some e →
    setFirstChildText t e.text cs = cs := by
  intro cs
  induction cs with
  | nil => intro e h; simp [findChild] at h
  | cons c rest ih =>
    intro e h
    by_cases hc : c.tag = t
    · simp only [findChild, hc, if_true, Option.some.injEq] at h
      subst h
      cases c with
      | node ct cx cc =>
        rw [XElem.tag] at hc
        simp [setFirstChildText, XElem.text, XElem.tag, XElem.children, hc]
    · simp only [findChild, hc, if_false] at h
      simp [setFirstChildText, hc, ih e h]

theorem processDep_no_rules (file_path : Str) (serialize : XElem → Str)
    (udiff : Str → Str → Str) (ns : Str) (dep : XElem)
    (occs : List Occurrence) :
    processDep file_path serialize udiff [] ns dep occs =
      (dep, occs, []) := by
  have hb : ∀ x : XElem, (some x).bind XElem.text = x.text := fun x => rfl
  simp only [processDep, List.foldl_nil]
  cases haid : findChild (ns ++ strL "artifactId") dep.children with
  | none =>
    cases hver : findChild (ns ++ strL "version") dep.children with
    | none =>
      simp only [haid, hver, Option.isSome_none, Bool.false_eq_true,
        if_false, Option.bind_none]
      cases dep with
      | node t tx cs => rfl
    | some v =>
      simp only [haid, hver, Option.isSome_none, Option.isSome_some,
        Bool.false_eq_true, if_false, if_true, Option.bind_none]
      rw [hb, setFirstChildText_self (ns ++ strL "version") dep.children v
        hver]
      cases dep with
      | node t tx cs => rfl
  | some a =>
    cases hver : findChild (ns ++ strL "version") dep.children with
    | none =>
      simp only [haid, hver, Option.isSome_none, Option.isSome_some,
        Bool.false_eq_true, if_false, if_true, Option.bind_none]
      rw [hb, setFirstChildText_self (ns ++ strL "artifactId") dep.children
        a haid]
      cases dep with
      | node t tx cs => rfl
    | some v =>
      simp only [haid, hver, Option.isSome_some, if_true]
      rw [hb, hb,
        setFirstChildText_self (ns ++ strL "artifactId") dep.children a
          haid,
        setFirstChildText_self (ns ++ strL "version") dep.children v hver]
      cases dep with
      | node t tx cs => rfl

theorem pomWalkList_no_rules (file_path : Str) (serialize : XElem → Str)
    (udiff : Str → Str → Str) (ns : Str) :
    ∀ (cs : List XElem) (occs : List Occurrence),
    pomWalkList file_path serialize udiff [] ns cs occs =
      (cs, occs, []) := by
  have main : ∀ (n : Nat) (cs : List XElem) (occs : List Occurrence),
      xsizeL cs ≤ n →
      pomWalkList file_path serialize udiff [] ns cs occs =
        (cs, occs, []) := by
    intro n
    induction n with
    | zero =>
      intro cs occs h
      cases cs with
      | nil => rw [pomWalkList]
      | cons e rest =>
        exfalso
        have h1 := xsize_pos e
        simp only [xsizeL] at h
        omega
    | succ n ih =>
      intro cs occs h
      cases cs with
      | nil => rw [pomWalkList]
      | cons e rest =>
        rw [pomWalkList]
        have hp : (if e.tag = ns ++ strL "dependency" then
            processDep file_path serialize udiff [] ns e occs
          else (e, occs, [])) = (e, occs, []) := by
          split
          · exact processDep_no_rules file_path serialize udiff ns e occs
          · rfl
        rw [hp]
        have hchild : xsizeL e.children ≤ n := by
          have h1 := xsizeL_children_lt e
          simp only [xsizeL] at h
          omega
        have hrest : xsizeL rest ≤ n := by
          have h1 := xsize_pos e
          simp only [xsizeL] at h
          omega
        rw [ih e.children occs hchild, ih rest occs hrest]
        cases e with
        | node t tx cs2 => rfl
  exact fun cs occs => main (xsizeL cs) cs occs le_rfl

/-- Audit produced for a rewritten descriptor in the C10 scenario. -/
def pomAudit (hash : Str → Str) (content newContent : Str) : FileAudit :=
  { file := strL "pom.xml"
    before_hash := some (hash content)
    after_hash := some (hash newContent)
    changed := true }

/-- Claim C10: for well-formed dependency-descriptor content the
structural rewriter unconditionally returns the re-serialised tree; with
an empty rule set no rule fires and the change list is empty, yet when
the serialisation differs from the input content process_file reports
changed true and, in apply mode, writes the backup and overwrites the
file with the re-serialised tree despite emitting no Change. -/
theorem pom_reserialize_overwrites (hash : Str → Str)
    (parse : Str → Option XElem) (serialize : XElem → Str)
    (udiff : Str → Str → Str) (searchMatch : Str → Bool) (content : Str)
    (root : XElem) (sql plsql java : List Rule) (backup_ext : Str)
    (hp : parse content = some root)
    (hs : serialize root ≠ content)
    (hm : searchMatch (strL "pom.xml") = true) :
    process_file hash parse serialize udiff searchMatch (strL "pom.xml")
      content sql plsql java [] backup_ext false =
      (([], [], some (pomAudit hash content (serialize root))),
       [(strL "pom.xml" ++ backup_ext, content),
        (strL "pom.xml", serialize root)]) := by
  have hpom : apply_pom_dependency_changes parse serialize udiff content
      (strL "pom.xml") [] [] = (serialize root, [], []) := by
    unfold apply_pom_dependency_changes
    rw [hp]
    simp only [pomWalkList_no_rules]
    cases root with
    | node t tx cs => rfl
  have hconv : apply_conversions parse serialize udiff content []
      (strL "pom.xml") [] = (serialize root, [], []) := by
    show List.foldl (conv_step udiff (strL "pom.xml"))
      (if strEndsWith (strL "pom.xml") (strL "pom.xml") = true then
        apply_pom_dependency_changes parse serialize udiff content
          (strL "pom.xml") [] []
      else (content, [], [])) [] = (serialize root, [], [])
    rw [List.foldl_nil, if_pos (by decide), hpom]
  have hcore : process_file_core hash parse serialize udiff (strL "pom.xml")
      content sql plsql java [] =
      (([], [], pomAudit hash content (serialize root)), serialize root) := by
    show (((apply_conversions parse serialize udiff content []
        (strL "pom.xml") []).2.1,
      (apply_conversions parse serialize udiff content []
        (strL "pom.xml") []).2.2,
      { file := strL "pom.xml"
        before_hash := some (hash content)
        after_hash := some (if decide ((apply_conversions parse serialize
            udiff content [] (strL "pom.xml") []).1 ≠ content) = true then
          hash (apply_conversions parse serialize udiff content []
            (strL "pom.xml") []).1
          else hash content)
        changed := decide ((apply_conversions parse serialize udiff content
          [] (strL "pom.xml") []).1 ≠ content) }),
      (apply_conversions parse serialize udiff content []
        (strL "pom.xml") []).1) =
      (([], [], pomAudit hash content (serialize root)), serialize root)
    rw [hconv]
    simp [pomAudit, hs]
  have hbp : with_suffix_model (strL "pom.xml")
      (pathSuffix (strL "pom.xml") ++ backup_ext) =
      strL "pom.xml" ++ backup_ext := by
    show (strL "pom.xml").take ((strL "pom.xml").length -
      (pathSuffix (strL "pom.xml")).length) ++
      (pathSuffix (strL "pom.xml") ++ backup_ext) =
      strL "pom.xml" ++ backup_ext
    rw [← List.append_assoc]
    rfl
  simp only [process_file, hm, eq_self_iff_true, if_true, hcore, hbp]
  simp [pomAudit]

/-- Root element of the C10 witness. -/
def rootC10 : XElem := XElem.node (strL "project") none []

/-- Parser model of the C10 witness: accepts exactly one document. -/
def parseC10 : Str → Option XElem :=
  fun s => if s = strL "<project></project>" then some rootC10 else none

/-- Serialiser model of the C10 witness: re-serialisation differs from the
input byte-for-byte, as the output of ElementTree can. -/
def serializeC10 : XElem → Str := fun _ => strL "<project />"

/-- Witness for pom_reserialize_overwrites on a concrete descriptor. -/
theorem pom_reserialize_overwrites_witness :
    process_file (fun s => s) parseC10 serializeC10 (fun _ _ => [])
      (fun _ => true) (strL "pom.xml") (strL "<project></project>")
      [] [] [] [] (strL ".bak") false =
      (([], [], some (pomAudit (fun s => s) (strL "<project></project>")
        (serializeC10 rootC10))),
       [(strL "pom.xml" ++ strL ".bak", strL "<project></project>"),
        (strL "pom.xml", serializeC10 rootC10)]) :=
  pom_reserialize_overwrites (fun s => s) parseC10 serializeC10
    (fun _ _ => []) (fun _ => true) (strL "<project></project>") rootC10
    [] [] [] (strL ".bak") (by simp [parseC10]) (by decide) rfl

end Migrador
